import Mathlib

/-!
# Verification of the Change-Detection & Account-Lifecycle Engine

Shallow embedding of the core of the antigravity-agent application
(`src-tauri/src`): the database change monitor (`db_monitor.rs`), the
selective account backup (`antigravity_backup.rs`), the account restore
(`antigravity/restore.rs`), process termination (`platform_utils.rs`) and
the switch-account workflow (`commands/account_commands.rs`).

The host application's state database is a single SQLite table
`ItemTable (key TEXT PRIMARY KEY, value TEXT)`.  It is embedded as an
association list from keys to raw string values.  JSON values
(`serde_json::Value`) are embedded as the inductive type `JsonVal`;
JSON numbers are modelled as integers (no claim depends on
floating-point numerics), and `\u` escapes are outside the model.
Filesystem and SQLite I/O failures are modelled by `Except`/`Option`
inputs where a claim depends on them; timestamps, process ids and launch
outcomes are explicit parameters.
-/

/-! ## JSON values (embedding of serde_json::Value) -/

inductive JsonVal where
  | null : JsonVal
  | bool : Bool → JsonVal
  | num : Int → JsonVal
  | str : String → JsonVal
  | arr : List JsonVal → JsonVal
  | obj : List (String × JsonVal) → JsonVal
deriving Repr

mutual

/-- Structural equality of JSON values: the embedding of the derived
`PartialEq` on `serde_json::Value` used by `analyze_diff`. -/
def JsonVal.beq : JsonVal → JsonVal → Bool
  | .null, .null => true
  | .bool a, .bool b => a == b
  | .num a, .num b => a == b
  | .str a, .str b => a == b
  | .arr a, .arr b => JsonVal.beqList a b
  | .obj a, .obj b => JsonVal.beqObj a b
  | _, _ => false

def JsonVal.beqList : List JsonVal → List JsonVal → Bool
  | [], [] => true
  | x :: xs, y :: ys => JsonVal.beq x y && JsonVal.beqList xs ys
  | _, _ => false

def JsonVal.beqObj : List (String × JsonVal) → List (String × JsonVal) → Bool
  | [], [] => true
  | (k, v) :: xs, (k2, v2) :: ys => k == k2 && JsonVal.beq v v2 && JsonVal.beqObj xs ys
  | _, _ => false

end

/-! ## JSON text (embedding of serde_json::from_str and to_string)

`parseJson` is a complete-input parser: trailing non-whitespace input is
a parse failure, as in `serde_json::from_str`. -/

def isWs (c : Char) : Bool :=
  c = ' ' || c = '\n' || c = '\t' || c = '\r'

def skipWs : List Char → List Char
  | [] => []
  | c :: cs => if isWs c then skipWs cs else c :: cs

def parseStringBody (fuel : Nat) (cs : List Char) (acc : List Char) :
    Option (String × List Char) :=
  match fuel, cs with
  | 0, _ => none
  | _, [] => none
  | fuel + 1, c :: rest =>
    if c = '"' then some (String.mk acc.reverse, rest)
    else if c = '\\' then
      match rest with
      | [] => none
      | e :: rest2 =>
        if e = '"' then parseStringBody fuel rest2 ('"' :: acc)
        else if e = '\\' then parseStringBody fuel rest2 ('\\' :: acc)
        else if e = '/' then parseStringBody fuel rest2 ('/' :: acc)
        else if e = 'n' then parseStringBody fuel rest2 ('\n' :: acc)
        else if e = 't' then parseStringBody fuel rest2 ('\t' :: acc)
        else if e = 'r' then parseStringBody fuel rest2 ('\r' :: acc)
        else none
    else parseStringBody fuel rest (c :: acc)

def parseDigits (fuel : Nat) (cs : List Char) (acc : Nat) (seen : Bool) :
    Option (Nat × List Char) :=
  match fuel, cs with
  | 0, _ => none
  | _, [] => if seen then some (acc, []) else none
  | fuel + 1, c :: rest =>
    if c.isDigit then parseDigits fuel rest (acc * 10 + (c.toNat - '0'.toNat)) true
    else if seen then some (acc, c :: rest) else none

mutual

def parseVal (fuel : Nat) (cs : List Char) : Option (JsonVal × List Char) :=
  match fuel with
  | 0 => none
  | fuel + 1 =>
    match skipWs cs with
    | [] => none
    | c :: rest =>
      if c = 'n' then
        match rest with
        | 'u' :: 'l' :: 'l' :: rest2 => some (.null, rest2)
        | _ => none
      else if c = 't' then
        match rest with
        | 'r' :: 'u' :: 'e' :: rest2 => some (.bool true, rest2)
        | _ => none
      else if c = 'f' then
        match rest with
        | 'a' :: 'l' :: 's' :: 'e' :: rest2 => some (.bool false, rest2)
        | _ => none
      else if c = '"' then
        match parseStringBody fuel rest [] with
        | some (s, rest2) => some (.str s, rest2)
        | none => none
      else if c = '-' then
        match parseDigits fuel rest 0 false with
        | some (n, rest2) => some (.num (-(n : Int)), rest2)
        | none => none
      else if c.isDigit then
        match parseDigits fuel (c :: rest) 0 false with
        | some (n, rest2) => some (.num (n : Int), rest2)
        | none => none
      else if c = '\x7b' then
        parseObjItems fuel rest [] true
      else if c = '[' then
        parseArrItems fuel rest [] true
      else none

def parseArrItems (fuel : Nat) (cs : List Char) (acc : List JsonVal) (first : Bool) :
    Option (JsonVal × List Char) :=
  match fuel with
  | 0 => none
  | fuel + 1 =>
    match skipWs cs with
    | [] => none
    | c :: rest =>
      if c = ']' then
        if first || !acc.isEmpty then some (.arr acc.reverse, rest) else none
      else if first then
        match parseVal fuel (c :: rest) with
        | some (v, rest2) => parseArrItems fuel rest2 [v] false
        | none => none
      else if c = ',' then
        match parseVal fuel rest with
        | some (v, rest2) => parseArrItems fuel rest2 (v :: acc) false
        | none => none
      else none

def parseObjItems (fuel : Nat) (cs : List Char) (acc : List (String × JsonVal)) (first : Bool) :
    Option (JsonVal × List Char) :=
  match fuel with
  | 0 => none
  | fuel + 1 =>
    match skipWs cs with
    | [] => none
    | c :: rest =>
      if c = '\x7d' then some (.obj acc.reverse, rest)
      else if first || c == ',' then
        let body := if first then c :: rest else rest
        match skipWs body with
        | '"' :: rest2 =>
          match parseStringBody fuel rest2 [] with
          | some (k, rest3) =>
            match skipWs rest3 with
            | ':' :: rest4 =>
              match parseVal fuel rest4 with
              | some (v, rest5) => parseObjItems fuel rest5 ((k, v) :: acc) false
              | none => none
            | _ => none
          | none => none
        | _ => none
      else none

end

def parseJson (s : String) : Option JsonVal :=
  match parseVal (s.length + 1) s.data with
  | some (v, rest) => if skipWs rest = [] then some v else none
  | none => none

def escapeChar (c : Char) : String :=
  if c = '"' then "\\\""
  else if c = '\\' then "\\\\"
  else if c = '\n' then "\\n"
  else if c = '\t' then "\\t"
  else if c = '\r' then "\\r"
  else String.mk [c]

def escapeString (s : String) : String :=
  String.join (s.data.map escapeChar)

mutual

/-- Compact JSON serialization of a structured value.  The backup file is
written with `serde_json::to_string_pretty`, which inserts additional
whitespace; a value whose compact serialization differs from a raw
string can only differ further under pretty-printing. -/
def serializeJson : JsonVal → String
  | .null => "null"
  | .bool true => "true"
  | .bool false => "false"
  | .num n => toString n
  | .str s => "\"" ++ escapeString s ++ "\""
  | .arr xs => "[" ++ serializeArr xs ++ "]"
  | .obj kvs => "\x7b" ++ serializeObj kvs ++ "\x7d"

def serializeArr : List JsonVal → String
  | [] => ""
  | [x] => serializeJson x
  | x :: y :: rest => serializeJson x ++ "," ++ serializeArr (y :: rest)

def serializeObj : List (String × JsonVal) → String
  | [] => ""
  | [(k, v)] => "\"" ++ escapeString k ++ "\":" ++ serializeJson v
  | (k, v) :: e :: rest =>
      "\"" ++ escapeString k ++ "\":" ++ serializeJson v ++ "," ++ serializeObj (e :: rest)

end

/-! ## String-keyed association lists

Shared representation for the `ItemTable` rows, for JSON-object maps
(`serde_json::Map`, keyed lookups only — the map's key ordering is not
relied on by any claim), and for the per-identifier backup directory
(file name to file content). -/

namespace KV

def lookup {α : Type} (l : List (String × α)) (k : String) : Option α :=
  match l with
  | [] => none
  | (k2, v) :: rest => if k2 = k then some v else lookup rest k

def containsKey {α : Type} (l : List (String × α)) (k : String) : Bool :=
  (lookup l k).isSome

/-- Upsert: replace the value if the key is present, append otherwise.
Embedding of `INSERT OR REPLACE INTO ItemTable` and of map insertion. -/
def insertOrReplace {α : Type} (l : List (String × α)) (k : String) (v : α) :
    List (String × α) :=
  if containsKey l k then
    l.map (fun r => if r.1 = k then (k, v) else r)
  else l ++ [(k, v)]

/-- Embedding of `DELETE FROM ItemTable WHERE key = ?` (idempotent). -/
def deleteKey {α : Type} (l : List (String × α)) (k : String) : List (String × α) :=
  l.filter (fun r => r.1 != k)

end KV

/-- A row set of the `ItemTable` key-value store: raw string values. -/
abbrev Store := List (String × String)

/-- A JSON object as a key-to-structured-value map. -/
abbrev JMap := List (String × JsonVal)

/-- The backup directory: backup file name to parsed file content. -/
abbrev BackupDir := List (String × JMap)

/-! ## Database key constants

Modelled from the spec: the module `constants.rs` is declared in
`main.rs` but its source is not present; the key names are fixed by the
spec ("the auth-status key ('antigravityAuthStatus')"), by the doc
comments and log strings of `antigravity/restore.rs` (the restore
writes back only `jetskiStateSync.agentManagerInitState` and removes
`antigravityAuthStatus`) and of `antigravity_backup.rs` (the full
`__$__targetStorageMarker` object and the `__$__isNewStorageMarker`
flag).  `ALL_KEYS` is the fixed allow-list of backed-up field names;
its exact membership beyond these named keys is unknown, and no claim
below depends on more than the named keys' membership and the absence
of fresh keys such as "someRandomKey". -/

namespace database

def AGENT_STATE : String := "jetskiStateSync.agentManagerInitState"

def AUTH_STATUS : String := "antigravityAuthStatus"

def TARGET_STORAGE_MARKER : String := "__$__targetStorageMarker"

def IS_NEW_STORAGE_MARKER : String := "__$__isNewStorageMarker"

def ALL_KEYS : List String := [AGENT_STATE, AUTH_STATUS, IS_NEW_STORAGE_MARKER]

end database

/-! ## Change Monitor (db_monitor.rs) -/

/-- Embedding of `DataDiff` in `db_monitor.rs`. -/
structure DataDiff where
  has_changes : Bool
  changed_fields : List String
  summary : String
deriving Repr

/-- Final assembly of a `DataDiff` from the collected `changed_fields`
list, mirroring the tail of `DatabaseMonitor::analyze_diff`. -/
def mkDataDiff (changed_fields : List String) : DataDiff :=
  let has_changes := !changed_fields.isEmpty
  { has_changes := has_changes
    changed_fields := changed_fields
    summary :=
      if has_changes then toString changed_fields.length ++ " fields changed"
      else "No changes" }

/-- First loop of `analyze_diff`: for every key of the new object, compare
with the old object; a key absent from the old object is `added`, a key
present in both with structurally unequal values is `changed`.  The
`none` fallback of the inner lookup is unreachable because the key is
drawn from the new object itself (in Rust: `new_obj.get(key).unwrap()`). -/
def diffAddedChanged (old_obj new_obj : JMap) : List String :=
  (new_obj.map Prod.fst).filterMap (fun key =>
    match KV.lookup old_obj key with
    | some old_value =>
      match KV.lookup new_obj key with
      | some new_value =>
        if JsonVal.beq old_value new_value then none
        else some (key ++ ": changed")
      | none => none
    | none => some (key ++ ": added"))

/-- Second loop of `analyze_diff`: every key of the old object absent
from the new object is `removed`. -/
def diffRemoved (old_obj new_obj : JMap) : List String :=
  (old_obj.map Prod.fst).filterMap (fun key =>
    if KV.containsKey new_obj key then none
    else some (key ++ ": removed"))

/-- Embedding of `DatabaseMonitor::analyze_diff`. -/
def analyze_diff (old new : JsonVal) : DataDiff :=
  mkDataDiff
    (match old, new with
     | .obj old_obj, .obj new_obj =>
        diffAddedChanged old_obj new_obj ++ diffRemoved old_obj new_obj
     | .null, .obj _ => ["data: added"]
     | .obj _, .null => ["data: removed"]
     | .null, .null => []
     | _, _ => ["data: structure_changed"])

/-- Embedding of `DatabaseMonitor::get_complete_data`.  The input is the
state of the `state.vscdb` file: `none` when the file does not exist,
otherwise its rows in the `ORDER BY key` order of the query.  Each raw
value is parsed as JSON, keeping the raw string when parsing fails; rows
are inserted into the result object in order.  (SQLite access failures
on an existing file surface as errors in the Rust code; the monitor
tick below takes the whole read result as an input to cover them.) -/
def get_complete_data (db : Option Store) : Except String JsonVal :=
  match db with
  | none => .ok (.obj [])
  | some rows =>
    .ok (.obj (rows.foldl
      (fun complete_data kv =>
        KV.insertOrReplace complete_data kv.1
          (match parseJson kv.2 with
           | some parsed => parsed
           | none => .str kv.2))
      []))

/-- A `database-changed` event emitted to the UI shell. -/
structure MonitorEvent where
  newData : JsonVal
  oldData : JsonVal
  diff : DataDiff

/-- One iteration of the monitoring loop body in
`DatabaseMonitor::start_monitoring`, after the running-flag check:
given the stored previous snapshot and the result of the snapshot read,
it returns the new stored snapshot and the emitted events.  On a read
failure the tick only logs and changes nothing; on success the current
snapshot always becomes the stored snapshot, and an event is emitted
only when a previous snapshot existed and the diff has changes. -/
def monitor_tick (last_data : Option JsonVal) (read : Except String JsonVal) :
    Option JsonVal × List MonitorEvent :=
  match read with
  | .error _ => (last_data, [])
  | .ok new_data =>
    match last_data with
    | some old_data =>
      let diff := analyze_diff old_data new_data
      if diff.has_changes then (some new_data, [⟨new_data, old_data, diff⟩])
      else (some new_data, [])
    | none => (some new_data, [])

/-- Observable state of a `DatabaseMonitor`: the shared running flag, the
shared previous snapshot, and the number of spawned monitoring loops
that have not yet observed a cleared flag and exited. -/
structure MonitorState where
  is_running : Bool
  last_data : Option JsonVal
  live_loops : Nat

/-- Embedding of `DatabaseMonitor::start_monitoring`: it sets the shared
running flag and then unconditionally `tokio::spawn`s a new monitoring
loop — there is no check of the current flag value — and returns `Ok`. -/
def start_monitoring (s : MonitorState) : MonitorState × Except String Unit :=
  ({ is_running := true, last_data := s.last_data, live_loops := s.live_loops + 1 },
   .ok ())

/-- Embedding of `DatabaseMonitor::stop_monitoring`: clears the flag. -/
def stop_monitoring (s : MonitorState) : MonitorState :=
  { s with is_running := false }

/-! ## Backup (antigravity_backup.rs) -/

/-- Construction of the backup record `data_map` inside
`smart_backup_antigravity_account`: the raw string values of the
allow-listed keys, then the parsed `__$__targetStorageMarker` object
when its raw value parses as JSON (an unparsable marker is skipped),
then the `account_email` / `backup_time` metadata. -/
def backup_data_map (email now : String) (store : Store) : JMap :=
  let data_map : JMap := database.ALL_KEYS.foldl
    (fun data_map key =>
      match KV.lookup store key with
      | some v => KV.insertOrReplace data_map key (.str v)
      | none => data_map)
    []
  let data_map :=
    match KV.lookup store database.TARGET_STORAGE_MARKER with
    | some marker_json =>
      match parseJson marker_json with
      | some parsed_marker =>
        KV.insertOrReplace data_map database.TARGET_STORAGE_MARKER parsed_marker
      | none => data_map
    | none => data_map
  let data_map := KV.insertOrReplace data_map "account_email" (.str email)
  KV.insertOrReplace data_map "backup_time" (.str now)

/-- Embedding of `smart_backup_antigravity_account`.  Inputs: the account
email, the current timestamp string, the backup directory contents, and
the state of the database file (`none` when `state.vscdb` does not
exist).  A missing database file is an error; otherwise the backup file
named after the email is written (one file per identifier, overwriting
any earlier backup).  Returns the updated backup directory together
with `(backup_name, is_overwrite)`. -/
def smart_backup_antigravity_account (email now : String)
    (backups : BackupDir) (db : Option Store) :
    Except String (BackupDir × String × Bool) :=
  let backup_name := email
  let is_overwrite := KV.containsKey backups (backup_name ++ ".json")
  match db with
  | none => .error "数据库文件不存在: state.vscdb"
  | some store =>
    .ok (KV.insertOrReplace backups (backup_name ++ ".json")
          (backup_data_map email now store),
         backup_name, is_overwrite)

/-! ## Restore (antigravity/restore.rs) -/

/-- Embedding of the inlined `restore_db` closure: write back only the
`jetskiStateSync.agentManagerInitState` field of the backup record (when
present and a string), and unconditionally delete the
`antigravityAuthStatus` key.  Returns the new rows and the restored
count. -/
def restore_db (account_data : JMap) (store : Store) : Store × Nat :=
  let (store1, restored_count) :=
    match KV.lookup account_data database.AGENT_STATE with
    | some (.str val_str) =>
      (KV.insertOrReplace store database.AGENT_STATE val_str, 1)
    | some _ => (store, 0)
    | none => (store, 0)
  (KV.deleteKey store1 database.AUTH_STATUS, restored_count)

/-- Embedding of `save_antigravity_account_to_file` applied to the main
`state.vscdb` store.  A missing account file is a hard failure naming
the file; otherwise `restore_db` runs on the main store.  (The optional
secondary `state.vscdb.backup` store receives the same `restore_db` and
is not separately modelled, and the database-path fallback search is
outside the model.) -/
def save_antigravity_account_to_file (backups : BackupDir)
    (account_file : String) (store : Store) : Except String (Store × String) :=
  match KV.lookup backups account_file with
  | none => .error ("账户文件不存在: " ++ account_file)
  | some account_data =>
    let (store1, restored_count) := restore_db account_data store
    .ok (store1, "✅ 恢复成功! 主库恢复 " ++ toString restored_count ++ " 项")

/-! ## Process Controller (platform_utils.rs) -/

/-- Embedding of `kill_antigravity_processes`: the process table is
re-enumerated on each call; every process whose name is exactly
"Antigravity" is terminated.  With zero matches the table is unchanged
and the distinguishable not-found message is returned as the error;
otherwise the matching processes are removed and a success summary
lists the terminated identifiers. -/
def kill_antigravity_processes (processes : List (Nat × String)) :
    List (Nat × String) × Except String String :=
  let killed := processes.filter (fun p => p.2 == "Antigravity")
  if killed.isEmpty then
    (processes, .error "未找到Antigravity进程")
  else
    (processes.filter (fun p => p.2 != "Antigravity"),
     .ok ("已成功关闭Antigravity进程: " ++
       String.intercalate ", "
         (killed.map (fun p => "Antigravity (PID: " ++ toString p.1 ++ ")"))))

/-- Does the character list start with the pattern? -/
def startsWithChars : List Char → List Char → Bool
  | [], _ => true
  | _ :: _, [] => false
  | p :: ps, c :: cs => p == c && startsWithChars ps cs

/-- Does the character list contain the pattern as a contiguous run? -/
def containsChars (pat : List Char) : List Char → Bool
  | [] => pat.isEmpty
  | c :: cs => startsWithChars pat (c :: cs) || containsChars pat cs

/-- Substring test, embedding `str::contains`. -/
def strContains (s pat : String) : Bool :=
  containsChars pat.data s.data

/-- Step 1 of both workflows (`switch_to_antigravity_account` and
`backup_and_restart_antigravity` contain the identical match): a kill
outcome containing "not found" or "未找到" — on either the success or the
error side — is downgraded to the soft message "Antigravity 进程未运行";
any other kill error is fatal for the workflow. -/
def handle_kill_step (r : Except String String) : Except String String :=
  match r with
  | .ok result =>
    if strContains result "not found" || strContains result "未找到" then
      .ok "Antigravity 进程未运行"
    else .ok result
  | .error e =>
    if strContains e "not found" || strContains e "未找到" then
      .ok "Antigravity 进程未运行"
    else .error ("关闭进程时发生错误: " ++ e)

/-! ## Switch workflow (commands/account_commands.rs) -/

/-- The world state the workflows act on: the OS process table, the
state database file, and the backup directory. -/
structure World where
  processes : List (Nat × String)
  db : Option Store
  backups : BackupDir

/-- Embedding of `switch_to_antigravity_account`: (1) terminate the host
process, not-found being soft; (2) fixed delay (not modelled); (3)
restore the named backup — `restore_antigravity_account` builds the
file name `account_name ++ ".json"` and delegates to the restore of
`antigravity/restore.rs`, and its error propagates via `?`; (4) fixed
delay; (5) relaunch, whose outcome `launch` is an input and whose
failure is folded into the success message.  Returns the result and the
final world. -/
def switch_to_antigravity_account (account_name : String)
    (launch : Except String String) (w : World) :
    Except String String × World :=
  let (processes1, kill_raw) := kill_antigravity_processes w.processes
  let w1 : World := { w with processes := processes1 }
  match handle_kill_step kill_raw with
  | .error e => (.error e, w1)
  | .ok kill_result =>
    match save_antigravity_account_to_file w1.backups (account_name ++ ".json")
        (w1.db.getD []) with
    | .error e => (.error e, w1)
    | .ok (store1, restore_result) =>
      let w2 : World := { w1 with db := some store1 }
      let start_message :=
        match launch with
        | .ok r => r
        | .error e => "启动失败: " ++ e
      (.ok (kill_result ++ " -> " ++ restore_result ++ " -> " ++ start_message), w2)

/-! ## Association-list lemmas -/

namespace KV

theorem lookup_cons {α : Type} (k1 : String) (v1 : α) (tl : List (String × α)) (q : String) :
    lookup ((k1, v1) :: tl) q = if k1 = q then some v1 else lookup tl q := rfl

theorem lookup_append {α : Type} (a b : List (String × α)) (q : String) :
    lookup (a ++ b) q = (lookup a q).or (lookup b q) := by
  induction a with
  | nil => simp [lookup]
  | cons hd tl ih =>
    obtain ⟨k1, v1⟩ := hd
    by_cases h1 : k1 = q
    · simp [lookup_cons, h1]
    · simp [lookup_cons, h1, ih]

theorem lookup_mapReplace {α : Type} (l : List (String × α)) (k : String) (v : α)
    (q : String) :
    lookup (l.map (fun r => if r.1 = k then (k, v) else r)) q =
      if q = k then (lookup l k).map (fun _ => v) else lookup l q := by
  induction l with
  | nil => simp [lookup]
  | cons hd tl ih =>
    obtain ⟨k1, v1⟩ := hd
    rw [List.map_cons]
    by_cases h1 : k1 = k
    · subst h1
      rw [if_pos (show (k1, v1).1 = k1 from rfl)]
      by_cases h2 : q = k1
      · subst h2
        rw [lookup_cons, if_pos rfl, if_pos rfl, lookup_cons, if_pos rfl]
        rfl
      · rw [lookup_cons, if_neg (fun h => h2 h.symm), ih, if_neg h2, if_neg h2,
            lookup_cons, if_neg (fun h => h2 h.symm)]
    · rw [if_neg (show ¬ (k1, v1).1 = k from h1)]
      by_cases h2 : k1 = q
      · subst h2
        rw [lookup_cons, if_pos rfl, if_neg h1, lookup_cons, if_pos rfl]
      · rw [lookup_cons, if_neg h2, ih, lookup_cons, if_neg h1, lookup_cons, if_neg h2]

theorem lookup_insertOrReplace {α : Type} (l : List (String × α)) (k : String)
    (v : α) (q : String) :
    lookup (insertOrReplace l k v) q = if q = k then some v else lookup l q := by
  unfold insertOrReplace
  by_cases hc : containsKey l k
  · rw [if_pos hc, lookup_mapReplace]
    unfold containsKey at hc
    obtain ⟨w, hw⟩ := Option.isSome_iff_exists.mp hc
    rw [hw]
    by_cases h2 : q = k
    · rw [if_pos h2, if_pos h2]; rfl
    · rw [if_neg h2, if_neg h2]
  · rw [if_neg hc, lookup_append]
    unfold containsKey at hc
    have hnone : lookup l k = none := by
      cases h : lookup l k with
      | none => rfl
      | some w => exact absurd (by simp [h]) hc
    by_cases h2 : q = k
    · subst h2
      rw [hnone, if_pos rfl, lookup_cons, if_pos rfl]
      rfl
    · rw [if_neg h2]
      have hone : lookup [(k, v)] q = none := by
        rw [lookup_cons, if_neg (fun h => h2 h.symm)]
        rfl
      rw [hone]
      cases lookup l q <;> rfl

theorem lookup_deleteKey {α : Type} (l : List (String × α)) (k q : String) :
    lookup (deleteKey l k) q = if q = k then none else lookup l q := by
  induction l with
  | nil => simp [deleteKey, lookup]
  | cons hd tl ih =>
    obtain ⟨k1, v1⟩ := hd
    unfold deleteKey at ih ⊢
    rw [List.filter_cons]
    by_cases h1 : k1 = k
    · subst h1
      rw [show ((k1, v1).1 != k1) = false from by simp, if_neg Bool.false_ne_true, ih]
      by_cases h2 : q = k1
      · rw [if_pos h2, if_pos h2]
      · rw [if_neg h2, if_neg h2, lookup_cons, if_neg (fun h => h2 h.symm)]
    · rw [show ((k1, v1).1 != k) = true from by simp [h1], if_pos rfl, lookup_cons]
      by_cases h2 : k1 = q
      · subst h2
        rw [if_pos rfl, if_neg h1, lookup_cons, if_pos rfl]
      · rw [if_neg h2, ih]
        by_cases h3 : q = k
        · rw [if_pos h3, if_pos h3]
        · rw [if_neg h3, if_neg h3, lookup_cons, if_neg h2]

theorem isSome_lookup_iff_mem {α : Type} (l : List (String × α)) (k : String) :
    (lookup l k).isSome = true ↔ k ∈ l.map Prod.fst := by
  induction l with
  | nil => simp [lookup]
  | cons hd tl ih =>
    obtain ⟨k1, v1⟩ := hd
    by_cases h1 : k1 = k
    · subst h1; simp [lookup_cons]
    · simp [lookup_cons, h1, ih, Ne.symm h1]

theorem lookup_eq_none_iff_not_mem {α : Type} (l : List (String × α)) (k : String) :
    lookup l k = none ↔ ¬ k ∈ l.map Prod.fst := by
  rw [← isSome_lookup_iff_mem]
  cases lookup l k <;> simp

end KV

/-! ## Diff-entry string lemmas

Every `changed_fields` entry is built by appending one of the three
suffixes ": added", ": changed", ": removed" to a key.  `tag3` reads the
third character from the end, which distinguishes the three suffixes
(letters d, g, v), and appending a fixed suffix is injective. -/

def tag3 (s : String) : Option Char := s.data.reverse[2]?

theorem tag3_append (a s : String) (h : 2 < s.data.reverse.length) :
    tag3 (a ++ s) = s.data.reverse[2]? := by
  unfold tag3
  rw [String.data_append a s, List.reverse_append a.data s.data]
  exact List.getElem?_append_left h

theorem tag3_removed (a : String) : tag3 (a ++ ": removed") = some 'v' := by
  rw [tag3_append a ": removed" (by decide)]
  rfl

theorem tag3_added (a : String) : tag3 (a ++ ": added") = some 'd' := by
  rw [tag3_append a ": added" (by decide)]
  rfl

theorem tag3_changed (a : String) : tag3 (a ++ ": changed") = some 'g' := by
  rw [tag3_append a ": changed" (by decide)]
  rfl

theorem append_right_cancel_str (a b s : String) (h : a ++ s = b ++ s) : a = b := by
  have hd := congrArg String.data h
  rw [String.data_append a s, String.data_append b s] at hd
  have h2 := congrArg List.reverse hd
  rw [List.reverse_append a.data s.data, List.reverse_append b.data s.data] at h2
  have h3 := List.append_cancel_left h2
  exact String.ext (List.reverse_injective h3)

theorem removed_ne_added (a b : String) : a ++ ": removed" ≠ b ++ ": added" := by
  intro h
  have h2 := congrArg tag3 h
  rw [tag3_removed, tag3_added] at h2
  exact absurd h2 (by decide)

theorem removed_ne_changed (a b : String) : a ++ ": removed" ≠ b ++ ": changed" := by
  intro h
  have h2 := congrArg tag3 h
  rw [tag3_removed, tag3_changed] at h2
  exact absurd h2 (by decide)

theorem added_ne_changed (a b : String) : a ++ ": added" ≠ b ++ ": changed" := by
  intro h
  have h2 := congrArg tag3 h
  rw [tag3_added, tag3_changed] at h2
  exact absurd h2 (by decide)

/-! ## Membership in the diff entry lists -/

theorem mem_diffRemoved_iff (o n : JMap) (k : String) :
    (k ++ ": removed") ∈ diffRemoved o n ↔
      (KV.lookup o k).isSome = true ∧ KV.lookup n k = none := by
  unfold diffRemoved
  rw [List.mem_filterMap]
  constructor
  · rintro ⟨k2, hmem, hf⟩
    by_cases hc : KV.containsKey n k2
    · rw [if_pos hc] at hf
      exact absurd hf (by simp)
    · rw [if_neg hc] at hf
      have hk : k2 = k := append_right_cancel_str k2 k ": removed" (Option.some.inj hf)
      subst hk
      refine ⟨(KV.isSome_lookup_iff_mem o k2).mpr hmem, ?_⟩
      unfold KV.containsKey at hc
      cases h : KV.lookup n k2 with
      | none => rfl
      | some w => exact absurd (by simp [h]) hc
  · rintro ⟨h1, h2⟩
    refine ⟨k, (KV.isSome_lookup_iff_mem o k).mp h1, ?_⟩
    have hc : ¬ (KV.containsKey n k = true) := by
      unfold KV.containsKey
      simp [h2]
    rw [if_neg hc]

theorem mem_diffAdded_iff (o n : JMap) (k : String) :
    (k ++ ": added") ∈ diffAddedChanged o n ↔
      KV.lookup o k = none ∧ (KV.lookup n k).isSome = true := by
  unfold diffAddedChanged
  rw [List.mem_filterMap]
  constructor
  · rintro ⟨k2, hmem, hf⟩
    cases ho : KV.lookup o k2 with
    | some ov =>
      rw [ho] at hf
      dsimp only at hf
      cases hn : KV.lookup n k2 with
      | some nv =>
        rw [hn] at hf
        dsimp only at hf
        by_cases hb : JsonVal.beq ov nv = true
        · rw [if_pos hb] at hf
          exact absurd hf (by simp)
        · rw [if_neg hb] at hf
          exact absurd (Option.some.inj hf).symm (added_ne_changed k k2)
      | none =>
        rw [hn] at hf
        dsimp only at hf
        exact absurd hf (by simp)
    | none =>
      rw [ho] at hf
      dsimp only at hf
      have hk : k2 = k := append_right_cancel_str k2 k ": added" (Option.some.inj hf)
      subst hk
      exact ⟨ho, (KV.isSome_lookup_iff_mem n k2).mpr hmem⟩
  · rintro ⟨h1, h2⟩
    refine ⟨k, (KV.isSome_lookup_iff_mem n k).mp h2, ?_⟩
    rw [h1]

theorem mem_diffChanged_iff (o n : JMap) (k : String) :
    (k ++ ": changed") ∈ diffAddedChanged o n ↔
      ∃ v w, KV.lookup o k = some v ∧ KV.lookup n k = some w ∧
        JsonVal.beq v w = false := by
  unfold diffAddedChanged
  rw [List.mem_filterMap]
  constructor
  · rintro ⟨k2, hmem, hf⟩
    cases ho : KV.lookup o k2 with
    | some ov =>
      rw [ho] at hf
      dsimp only at hf
      cases hn : KV.lookup n k2 with
      | some nv =>
        rw [hn] at hf
        dsimp only at hf
        by_cases hb : JsonVal.beq ov nv = true
        · rw [if_pos hb] at hf
          exact absurd hf (by simp)
        · rw [if_neg hb] at hf
          have hk : k2 = k := append_right_cancel_str k2 k ": changed" (Option.some.inj hf)
          subst hk
          exact ⟨ov, nv, ho, hn, Bool.eq_false_iff.mpr hb⟩
      | none =>
        rw [hn] at hf
        dsimp only at hf
        exact absurd hf (by simp)
    | none =>
      rw [ho] at hf
      dsimp only at hf
      exact absurd (Option.some.inj hf) (added_ne_changed k2 k)
  · rintro ⟨v, w, h1, h2, h3⟩
    refine ⟨k, (KV.isSome_lookup_iff_mem n k).mp (by simp [h2]), ?_⟩
    rw [h1, h2]
    dsimp only
    rw [if_neg (by simp [h3])]

theorem removed_not_mem_diffAddedChanged (o n : JMap) (k : String) :
    ¬ (k ++ ": removed") ∈ diffAddedChanged o n := by
  intro h
  obtain ⟨k2, hmem, hf⟩ := List.mem_filterMap.mp h
  cases ho : KV.lookup o k2 with
  | some ov =>
    rw [ho] at hf
    dsimp only at hf
    cases hn : KV.lookup n k2 with
    | some nv =>
      rw [hn] at hf
      dsimp only at hf
      by_cases hb : JsonVal.beq ov nv = true
      · rw [if_pos hb] at hf
        exact absurd hf (by simp)
      · rw [if_neg hb] at hf
        exact absurd (Option.some.inj hf).symm (removed_ne_changed k k2)
    | none =>
      rw [hn] at hf
      dsimp only at hf
      exact absurd hf (by simp)
  | none =>
    rw [ho] at hf
    dsimp only at hf
    exact absurd (Option.some.inj hf).symm (removed_ne_added k k2)

theorem added_not_mem_diffRemoved (o n : JMap) (k : String) :
    ¬ (k ++ ": added") ∈ diffRemoved o n := by
  intro h
  obtain ⟨k2, hmem, hf⟩ := List.mem_filterMap.mp h
  by_cases hc : KV.containsKey n k2 = true
  · rw [if_pos hc] at hf
    exact absurd hf (by simp)
  · rw [if_neg hc] at hf
    exact absurd (Option.some.inj hf) (removed_ne_added k2 k)

theorem changed_not_mem_diffRemoved (o n : JMap) (k : String) :
    ¬ (k ++ ": changed") ∈ diffRemoved o n := by
  intro h
  obtain ⟨k2, hmem, hf⟩ := List.mem_filterMap.mp h
  by_cases hc : KV.containsKey n k2 = true
  · rw [if_pos hc] at hf
    exact absurd hf (by simp)
  · rw [if_neg hc] at hf
    exact absurd (Option.some.inj hf) (removed_ne_changed k2 k)

theorem mkDataDiff_has_changes_iff (L : List String) :
    (mkDataDiff L).has_changes = true ↔ (mkDataDiff L).changed_fields ≠ [] := by
  cases L <;> simp [mkDataDiff]

/-- C4: for any two object snapshots, `changed_fields` carries a
"removed" entry for a key exactly when the key is in the old object and
not in the new one, an "added" entry exactly when it is only in the new
one, and a "changed" entry exactly when it is in both with structurally
unequal parsed values; structurally equal values produce no entry.  The
`has_changes` flag equals non-emptiness of `changed_fields` for every
pair of snapshots. -/
theorem claim_c4_diff_characterisation :
    (∀ (o n : JMap) (k : String),
      (((k ++ ": removed") ∈ (analyze_diff (.obj o) (.obj n)).changed_fields) ↔
        (KV.lookup o k).isSome = true ∧ KV.lookup n k = none) ∧
      (((k ++ ": added") ∈ (analyze_diff (.obj o) (.obj n)).changed_fields) ↔
        KV.lookup o k = none ∧ (KV.lookup n k).isSome = true) ∧
      (((k ++ ": changed") ∈ (analyze_diff (.obj o) (.obj n)).changed_fields) ↔
        ∃ v w, KV.lookup o k = some v ∧ KV.lookup n k = some w ∧
          JsonVal.beq v w = false)) ∧
    (∀ old new : JsonVal,
      (analyze_diff old new).has_changes = true ↔
        (analyze_diff old new).changed_fields ≠ []) := by
  constructor
  · intro o n k
    have hcf : (analyze_diff (.obj o) (.obj n)).changed_fields =
        diffAddedChanged o n ++ diffRemoved o n := rfl
    refine ⟨?_, ?_, ?_⟩
    · rw [hcf, List.mem_append]
      constructor
      · rintro (h | h)
        · exact absurd h (removed_not_mem_diffAddedChanged o n k)
        · exact (mem_diffRemoved_iff o n k).mp h
      · intro h
        exact Or.inr ((mem_diffRemoved_iff o n k).mpr h)
    · rw [hcf, List.mem_append]
      constructor
      · rintro (h | h)
        · exact (mem_diffAdded_iff o n k).mp h
        · exact absurd h (added_not_mem_diffRemoved o n k)
      · intro h
        exact Or.inl ((mem_diffAdded_iff o n k).mpr h)
    · rw [hcf, List.mem_append]
      constructor
      · rintro (h | h)
        · exact (mem_diffChanged_iff o n k).mp h
        · exact absurd h (changed_not_mem_diffRemoved o n k)
      · intro h
        exact Or.inl ((mem_diffChanged_iff o n k).mpr h)
  · intro a b
    unfold analyze_diff
    exact mkDataDiff_has_changes_iff _

/-! ## Backup record lookups -/

theorem lookup_backupFold (store : Store) (keys : List String) (m : JMap) (k : String) :
    KV.lookup (keys.foldl (fun data_map key =>
      match KV.lookup store key with
      | some v => KV.insertOrReplace data_map key (.str v)
      | none => data_map) m) k =
    if k ∈ keys ∧ (KV.lookup store k).isSome = true
    then (KV.lookup store k).map JsonVal.str
    else KV.lookup m k := by
  induction keys generalizing m with
  | nil => simp
  | cons k1 rest ih =>
    rw [List.foldl_cons, ih]
    by_cases h1 : k ∈ rest ∧ (KV.lookup store k).isSome = true
    · rw [if_pos h1, if_pos ⟨List.mem_cons_of_mem k1 h1.1, h1.2⟩]
    · rw [if_neg h1]
      by_cases h2 : k = k1
      · subst h2
        cases hs : KV.lookup store k with
        | some v =>
          dsimp only
          rw [KV.lookup_insertOrReplace, if_pos rfl,
            if_pos ⟨List.mem_cons_self k rest, rfl⟩]
          rfl
        | none =>
          dsimp only
          rw [if_neg (fun h => absurd h.2 (by simp))]
      · have hcond : ¬ (k ∈ k1 :: rest ∧ (KV.lookup store k).isSome = true) := by
          rintro ⟨hm, hs⟩
          rcases List.mem_cons.mp hm with h | h
          · exact h2 h
          · exact h1 ⟨h, hs⟩
        rw [if_neg hcond]
        cases hs : KV.lookup store k1 with
        | some v =>
          dsimp only
          rw [KV.lookup_insertOrReplace, if_neg h2]
        | none =>
          rfl

theorem lookup_backup_data_map (email now : String) (store : Store) (k : String)
    (hk1 : k ≠ "account_email") (hk2 : k ≠ "backup_time")
    (hk3 : k ≠ database.TARGET_STORAGE_MARKER) :
    KV.lookup (backup_data_map email now store) k =
      if k ∈ database.ALL_KEYS ∧ (KV.lookup store k).isSome = true
      then (KV.lookup store k).map JsonVal.str
      else none := by
  unfold backup_data_map
  rw [KV.lookup_insertOrReplace, if_neg hk2, KV.lookup_insertOrReplace, if_neg hk1]
  cases hm : KV.lookup store database.TARGET_STORAGE_MARKER with
  | some mj =>
    dsimp only
    cases hp : parseJson mj with
    | some p =>
      dsimp only
      rw [KV.lookup_insertOrReplace, if_neg hk3, lookup_backupFold]
      split
      · rfl
      · rfl
    | none =>
      dsimp only
      rw [lookup_backupFold]
      split
      · rfl
      · rfl
  | none =>
    dsimp only
    rw [lookup_backupFold]
    split
    · rfl
    · rfl

theorem lookup_backup_data_map_marker (email now : String) (store : Store) :
    KV.lookup (backup_data_map email now store) database.TARGET_STORAGE_MARKER =
      (KV.lookup store database.TARGET_STORAGE_MARKER).bind parseJson := by
  unfold backup_data_map
  rw [KV.lookup_insertOrReplace, if_neg (by decide),
    KV.lookup_insertOrReplace, if_neg (by decide)]
  cases hm : KV.lookup store database.TARGET_STORAGE_MARKER with
  | some mj =>
    dsimp only
    cases hp : parseJson mj with
    | some p =>
      dsimp only
      rw [KV.lookup_insertOrReplace, if_pos rfl]
      exact hp.symm
    | none =>
      dsimp only
      rw [lookup_backupFold, if_neg (fun h => by exact absurd h.1 (by decide))]
      simp [KV.lookup, hp]
  | none =>
    dsimp only
    rw [lookup_backupFold, if_neg (fun h => by exact absurd h.1 (by decide))]
    rfl

/-- C5: `analyze_diff` reports the single synthetic entry "data: added"
when the old snapshot is conceptually absent (`null`) and the new
snapshot is a non-empty object, rather than one entry per key; when the
store becomes fully absent the diff reports the single entry
"data: removed". -/
theorem claim_c5_synthetic_entries :
    (∀ n : JMap, n ≠ [] →
      (analyze_diff .null (.obj n)).changed_fields = ["data: added"] ∧
      (analyze_diff .null (.obj n)).has_changes = true) ∧
    (∀ o : JMap,
      (analyze_diff (.obj o) .null).changed_fields = ["data: removed"] ∧
      (analyze_diff (.obj o) .null).has_changes = true) :=
  ⟨fun _ _ => ⟨rfl, rfl⟩, fun _ => ⟨rfl, rfl⟩⟩

/-- Witness for C5 at a concrete non-empty snapshot. -/
theorem claim_c5_witness :
    (analyze_diff .null (.obj [("key", .num 1)])).changed_fields = ["data: added"] ∧
    (analyze_diff (.obj [("key", .num 1)]) .null).changed_fields = ["data: removed"] :=
  ⟨(claim_c5_synthetic_entries.1 [("key", .num 1)] (by simp)).1,
   (claim_c5_synthetic_entries.2 [("key", .num 1)]).1⟩

/-- C6: reading a full snapshot when the key-value store file does not
exist succeeds with an empty snapshot; absence is not an error. -/
theorem claim_c6_absent_store_empty_snapshot :
    get_complete_data none = .ok (.obj []) := rfl

/-- C9: on a tick whose snapshot read fails, the stored previous
snapshot is left exactly as it was and no event is emitted; on a tick
whose read succeeds, the current snapshot becomes the stored previous
snapshot whether or not changes were found. -/
theorem claim_c9_tick_frame :
    (∀ (last : Option JsonVal) (e : String),
      monitor_tick last (.error e) = (last, [])) ∧
    (∀ (last : Option JsonVal) (nd : JsonVal),
      (monitor_tick last (.ok nd)).1 = some nd) := by
  constructor
  · intro last e
    rfl
  · intro last nd
    cases last with
    | none => rfl
    | some od =>
      unfold monitor_tick
      dsimp only
      split <;> rfl

/-- C2 counterexample: starting the monitor while it is already running
is not a no-op — from a running state with one live loop, `start`
leaves the state changed (a second loop is spawned). -/
theorem claim_c2_counterexample :
    ¬ (∀ s : MonitorState, s.is_running = true →
        (start_monitoring s).2 = Except.ok () ∧ (start_monitoring s).1 = s) := by
  intro h
  have h2 := (h ⟨true, none, 1⟩ rfl).2
  have h3 : (start_monitoring ⟨true, none, 1⟩).1.live_loops = 2 := rfl
  rw [h2] at h3
  exact absurd h3 (by decide)

/-- C2 (amended): starting the monitor always returns success and sets
the running flag, but it is not a no-op when already running: the code
performs no already-running check, so every call unconditionally spawns
one more concurrent monitoring loop. -/
theorem claim_c2_amended_start_spawns :
    ∀ s : MonitorState,
      (start_monitoring s).2 = Except.ok () ∧
      (start_monitoring s).1.is_running = true ∧
      (start_monitoring s).1.live_loops = s.live_loops + 1 ∧
      (start_monitoring s).1.last_data = s.last_data :=
  fun _ => ⟨rfl, rfl, rfl, rfl⟩

/-- The C1 round-trip property exactly as claimed: after backing up
identifier E and restoring E, the store would contain exactly the
allow-listed fields' values as of backup time (every other key absent),
with the auth-status key absent regardless. -/
def backupRestoreExactClaim : Prop :=
  ∀ (email now : String) (backups : BackupDir) (store : Store),
    ∀ r1 : BackupDir × String × Bool,
      smart_backup_antigravity_account email now backups (some store) = .ok r1 →
    ∀ r2 : Store × String,
      save_antigravity_account_to_file r1.1 (email ++ ".json") store = .ok r2 →
    ∀ k, KV.lookup r2.1 k =
      if k = database.AUTH_STATUS then none
      else if k ∈ database.ALL_KEYS ∨ k = database.TARGET_STORAGE_MARKER
      then KV.lookup store k
      else none

/-- C1 counterexample: with a store holding only the key
"someRandomKey", backup-then-restore leaves that key in the store even
though it is not allow-listed, so the store does not contain "exactly
the allow-listed fields". -/
theorem claim_c1_counterexample : ¬ backupRestoreExactClaim := by
  intro h
  have h2 := h "user@example.com" "t" [] [("someRandomKey", "x")]
    ([("user@example.com.json",
       [("account_email", JsonVal.str "user@example.com"),
        ("backup_time", JsonVal.str "t")])], "user@example.com", false)
    rfl
    ([("someRandomKey", "x")], "✅ 恢复成功! 主库恢复 0 项")
    rfl
    "someRandomKey"
  exact absurd h2 (by decide)

/-- C1 (amended): backing up identifier E and then restoring E leaves
the store equal to its backup-time contents with the auth-status key
removed: the restore writes back only the agent-state field (whose
backed-up value is the store's own value, so it is unchanged), deletes
`antigravityAuthStatus`, and touches nothing else. -/
theorem claim_c1_amended_roundtrip :
    ∀ (email now : String) (backups : BackupDir) (store : Store),
      ∃ (backups1 : BackupDir) (ow : Bool) (final : Store) (msg : String),
        smart_backup_antigravity_account email now backups (some store) =
          .ok (backups1, email, ow) ∧
        save_antigravity_account_to_file backups1 (email ++ ".json") store =
          .ok (final, msg) ∧
        ∀ k, KV.lookup final k =
          if k = database.AUTH_STATUS then none else KV.lookup store k := by
  intro email now backups store
  have hb : KV.lookup
      (KV.insertOrReplace backups (email ++ ".json") (backup_data_map email now store))
      (email ++ ".json") = some (backup_data_map email now store) := by
    rw [KV.lookup_insertOrReplace, if_pos rfl]
  refine ⟨_, _, (restore_db (backup_data_map email now store) store).1,
    "✅ 恢复成功! 主库恢复 " ++
      toString (restore_db (backup_data_map email now store) store).2 ++ " 项",
    rfl, ?_, ?_⟩
  · unfold save_antigravity_account_to_file
    rw [hb]
  · intro k
    show KV.lookup (restore_db (backup_data_map email now store) store).1 k = _
    unfold restore_db
    cases hs : KV.lookup store database.AGENT_STATE with
    | some v =>
      have hag : KV.lookup (backup_data_map email now store) database.AGENT_STATE =
          some (JsonVal.str v) := by
        rw [lookup_backup_data_map email now store _ (by decide) (by decide) (by decide),
          if_pos ⟨by decide, by rw [hs]; rfl⟩, hs]
        rfl
      rw [hag]
      dsimp only
      rw [KV.lookup_deleteKey, KV.lookup_insertOrReplace]
      by_cases h1 : k = database.AUTH_STATUS
      · rw [if_pos h1, if_pos h1]
      · rw [if_neg h1, if_neg h1]
        by_cases h2 : k = database.AGENT_STATE
        · rw [if_pos h2, h2, hs]
        · rw [if_neg h2]
    | none =>
      have hag : KV.lookup (backup_data_map email now store) database.AGENT_STATE =
          none := by
        rw [lookup_backup_data_map email now store _ (by decide) (by decide) (by decide),
          if_neg (fun h => by rw [hs] at h; exact absurd h.2 (by simp))]
      rw [hag]
      dsimp only
      rw [KV.lookup_deleteKey]

/-- The C3 marker property exactly as claimed: whenever the store holds
a raw marker string, the written backup record holds a marker value
whose serialization is byte-for-byte that raw string. -/
def markerVerbatimClaim : Prop :=
  ∀ (email now : String) (backups : BackupDir) (store : Store) (raw : String),
    KV.lookup store database.TARGET_STORAGE_MARKER = some raw →
    ∀ r1 : BackupDir × String × Bool,
      smart_backup_antigravity_account email now backups (some store) = .ok r1 →
    ∃ record v,
      KV.lookup r1.1 (email ++ ".json") = some record ∧
      KV.lookup record database.TARGET_STORAGE_MARKER = some v ∧
      serializeJson v = raw

/-- C3 counterexample: a marker whose raw value "oops" is not valid JSON
is dropped by the backup (the code parses the marker and skips it on
parse failure), so no marker value at all reaches the backup record —
the marker is reinterpreted, not round-tripped byte-for-byte. -/
theorem claim_c3_counterexample : ¬ markerVerbatimClaim := by
  intro h
  obtain ⟨record, v, hrec, hv, hser⟩ :=
    h "e" "t" [] [(database.TARGET_STORAGE_MARKER, "oops")] "oops" rfl
      ([("e.json",
         [("account_email", JsonVal.str "e"), ("backup_time", JsonVal.str "t")])],
       "e", false)
      rfl
  have hrec2 : record =
      [("account_email", JsonVal.str "e"), ("backup_time", JsonVal.str "t")] := by
    have h3 : KV.lookup
        [("e.json",
          [("account_email", JsonVal.str "e"), ("backup_time", JsonVal.str "t")])]
        ("e" ++ ".json") =
        some [("account_email", JsonVal.str "e"), ("backup_time", JsonVal.str "t")] := rfl
    rw [h3] at hrec
    exact (Option.some.inj hrec).symm
  rw [hrec2] at hv
  rw [show KV.lookup
      [("account_email", JsonVal.str "e"), ("backup_time", JsonVal.str "t")]
      database.TARGET_STORAGE_MARKER = none from rfl] at hv
  exact Option.noConfusion hv

/-- C3 (amended): the backup record's marker entry is the JSON parse of
the raw marker string — the parsed structure when parsing succeeds
(re-serialized on write, so its bytes may differ from the raw string)
and absent when parsing fails. -/
theorem claim_c3_amended_marker_parsed :
    ∀ (email now : String) (backups : BackupDir) (store : Store),
      ∃ (backups1 : BackupDir) (ow : Bool),
        smart_backup_antigravity_account email now backups (some store) =
          .ok (backups1, email, ow) ∧
        KV.lookup backups1 (email ++ ".json") = some (backup_data_map email now store) ∧
        KV.lookup (backup_data_map email now store) database.TARGET_STORAGE_MARKER =
          (KV.lookup store database.TARGET_STORAGE_MARKER).bind parseJson := by
  intro email now backups store
  refine ⟨_, _, rfl, ?_, lookup_backup_data_map_marker email now store⟩
  rw [KV.lookup_insertOrReplace, if_pos rfl]

/-- C10: the backup operation fails with an error when the database file
does not exist (it never creates a backup record from an absent store),
whereas the full-snapshot read treats the same absence as a valid empty
observation. -/
theorem claim_c10_backup_requires_db :
    (∀ (email now : String) (backups : BackupDir),
      smart_backup_antigravity_account email now backups none =
        .error "数据库文件不存在: state.vscdb") ∧
    get_complete_data none = .ok (.obj []) :=
  ⟨fun _ _ _ => rfl, rfl⟩

/-! ## Workflow lemmas -/

theorem handle_kill_step_ok (m : String) :
    ∃ m2, handle_kill_step (.ok m) = .ok m2 := by
  unfold handle_kill_step
  dsimp only
  by_cases h : (strContains m "not found" || strContains m "未找到") = true
  · exact ⟨_, by rw [if_pos h]⟩
  · exact ⟨_, by rw [if_neg h]⟩

theorem kill_no_match (procs : List (Nat × String))
    (h : (procs.filter (fun p => p.2 == "Antigravity")).isEmpty = true) :
    kill_antigravity_processes procs = (procs, .error "未找到Antigravity进程") := by
  unfold kill_antigravity_processes
  rw [if_pos h]

theorem kill_match (procs : List (Nat × String))
    (h : ¬ (procs.filter (fun p => p.2 == "Antigravity")).isEmpty = true) :
    kill_antigravity_processes procs =
      (procs.filter (fun p => p.2 != "Antigravity"),
       .ok ("已成功关闭Antigravity进程: " ++
         String.intercalate ", "
           ((procs.filter (fun p => p.2 == "Antigravity")).map
             (fun p => "Antigravity (PID: " ++ toString p.1 ++ ")")))) := by
  unfold kill_antigravity_processes
  rw [if_neg h]

/-- C7: invoking the switch workflow for an identifier with no backup
file yields a hard failure whose message names the missing backup file,
and the process-termination step has already run: no process named
"Antigravity" remains in the resulting world. -/
theorem claim_c7_switch_missing_backup :
    ∀ (account_name : String) (launch : Except String String) (w : World),
      KV.lookup w.backups (account_name ++ ".json") = none →
      (switch_to_antigravity_account account_name launch w).1 =
        .error ("账户文件不存在: " ++ (account_name ++ ".json")) ∧
      ∀ p ∈ (switch_to_antigravity_account account_name launch w).2.processes,
        p.2 ≠ "Antigravity" := by
  intro an launch w hb
  unfold switch_to_antigravity_account
  have hsave : save_antigravity_account_to_file w.backups (an ++ ".json")
      (w.db.getD []) = .error ("账户文件不存在: " ++ (an ++ ".json")) := by
    unfold save_antigravity_account_to_file
    rw [hb]
  by_cases hk : (w.processes.filter (fun p => p.2 == "Antigravity")).isEmpty = true
  · rw [kill_no_match w.processes hk]
    dsimp only
    rw [show handle_kill_step (.error "未找到Antigravity进程") =
        .ok "Antigravity 进程未运行" from rfl]
    dsimp only
    rw [hsave]
    refine ⟨rfl, ?_⟩
    intro p hp hname
    have h2 := List.filter_eq_nil_iff.mp (List.isEmpty_iff.mp hk) p hp
    rw [hname] at h2
    exact h2 (by rfl)
  · rw [kill_match w.processes hk]
    dsimp only
    obtain ⟨m2, hm2⟩ := handle_kill_step_ok
      ("已成功关闭Antigravity进程: " ++
        String.intercalate ", "
          ((w.processes.filter (fun p => p.2 == "Antigravity")).map
            (fun p => "Antigravity (PID: " ++ toString p.1 ++ ")")))
    rw [hm2]
    dsimp only
    rw [hsave]
    refine ⟨rfl, ?_⟩
    intro p hp hname
    have h2 := (List.mem_filter.mp hp).2
    rw [hname] at h2
    simp at h2

/-- C7 witness: a concrete world with one running "Antigravity" process
and an empty backup directory. -/
theorem claim_c7_witness :
    (switch_to_antigravity_account "alice" (.ok "started")
      ⟨[(5, "Antigravity")], some [], []⟩).1 =
      .error ("账户文件不存在: " ++ ("alice" ++ ".json")) ∧
    ∀ p ∈ (switch_to_antigravity_account "alice" (.ok "started")
      ⟨[(5, "Antigravity")], some [], []⟩).2.processes,
      p.2 ≠ "Antigravity" :=
  claim_c7_switch_missing_backup "alice" (.ok "started")
    ⟨[(5, "Antigravity")], some [], []⟩ rfl

/-- C8: with no process named "Antigravity", `kill_antigravity_processes`
returns the distinguishable not-found message as its outcome (its only
possible error), and the workflows' shared step-1 handler turns exactly
that outcome into the soft success "Antigravity 进程未运行", so the
remaining workflow steps proceed. -/
theorem claim_c8_terminate_not_found :
    (∀ procs : List (Nat × String), (∀ p ∈ procs, p.2 ≠ "Antigravity") →
      kill_antigravity_processes procs = (procs, .error "未找到Antigravity进程") ∧
      handle_kill_step (kill_antigravity_processes procs).2 =
        .ok "Antigravity 进程未运行") ∧
    (∀ (procs : List (Nat × String)) (e : String),
      (kill_antigravity_processes procs).2 = .error e →
      e = "未找到Antigravity进程") := by
  constructor
  · intro procs hp
    have hk : (procs.filter (fun p => p.2 == "Antigravity")).isEmpty = true := by
      rw [List.isEmpty_iff]
      rw [List.filter_eq_nil_iff]
      intro p hmem
      simpa using hp p hmem
    refine ⟨kill_no_match procs hk, ?_⟩
    rw [kill_no_match procs hk]
    rfl
  · intro procs e he
    by_cases hk : (procs.filter (fun p => p.2 == "Antigravity")).isEmpty = true
    · rw [kill_no_match procs hk] at he
      exact (Except.error.inj he).symm
    · rw [kill_match procs hk] at he
      exact Except.noConfusion he

/-- C8 witness: a process table with a single unrelated process. -/
theorem claim_c8_witness :
    kill_antigravity_processes [(1, "bash")] =
      ([(1, "bash")], .error "未找到Antigravity进程") ∧
    handle_kill_step (kill_antigravity_processes [(1, "bash")]).2 =
      .ok "Antigravity 进程未运行" :=
  claim_c8_terminate_not_found.1 [(1, "bash")] (by decide)
